import Mathlib

/-!
# Verification of the windsurf-deepwiki streaming RPC client

Shallow embedding of the DeepWiki client protocol code of this repository
(`src/deepwikiClient.ts`, first revision in the file, lines 1-540, and the
field/varint codec of `src/unnamed/part_001`), together with proofs about the
embedded definitions.

Modelling conventions:
* A byte buffer (`Uint8Array` / `Buffer`) is a `List Nat`; every read applies
  `% 256`, mirroring the mod-256 storage guarantee of `Uint8Array`.
* JavaScript 32-bit operators (`<<`, `|`, `&`) are modelled on `Nat` bit
  patterns with an explicit `% 2 ^ 32`, and `toInt32` reinterprets a pattern
  as the signed value JavaScript produces.
* External collaborators that are not part of this repository's sources are
  passed as explicit function parameters: `gz` models `zlib.gunzipSync`
  (returning `none` models the function throwing), and `dec` models the
  generated protobuf decoder `GetDeepWikiResponse.internalBinaryRead`
  (`none` models a decode exception).  The generated module
  `./generated/deepwiki_full` is not under `src/`, so a concrete instance of
  `dec` is modelled from the spec further below.
* Strings are Lean `String`s; decoded protobuf text is produced by a
  WHATWG-style UTF-8 decoder with U+FFFD replacement, matching
  `Buffer.toString('utf8')`.
-/

namespace Deepwiki

/-- Reinterpret a 32-bit pattern as the signed value JavaScript's 32-bit
operators produce. -/
def toInt32 (n : Nat) : Int :=
  if n % 2 ^ 32 < 2 ^ 31 then ((n % 2 ^ 32 : Nat) : Int)
  else ((n % 2 ^ 32 : Nat) : Int) - 2 ^ 32

/-- The unsigned big-endian 32-bit value of four bytes, as read by
`buffer.readUInt32BE` (streaming decoder) and, before sign reinterpretation,
by the shift-or expression of the buffered decoder. -/
def be32U (b0 b1 b2 b3 : Nat) : Nat :=
  (b0 % 256) * 2 ^ 24 + (b1 % 256) * 2 ^ 16 + (b2 % 256) * 2 ^ 8 + (b3 % 256)

/-- The four big-endian bytes of a 32-bit length, as written by
`buffer.writeUInt32BE(n, 1)`. -/
def be32Bytes (n : Nat) : List Nat :=
  [n / 2 ^ 24 % 256, n / 2 ^ 16 % 256, n / 2 ^ 8 % 256, n % 256]

/-! ## UTF-8 decoding with replacement (Buffer.toString('utf8')) -/

/-- The U+FFFD replacement character. -/
def replacementChar : Char := Char.ofNat 0xFFFD

/-- First step of the WHATWG UTF-8 decoder on a lead byte: either a finished
character (ASCII or replacement for an invalid lead byte) or the state
`(codepoint, bytesNeeded, lowerBoundary, upperBoundary)` of a multi-byte
sequence. -/
def utf8Lead (b : Nat) : Sum Char (Nat × Nat × Nat × Nat) :=
  if b ≤ 0x7F then Sum.inl (Char.ofNat b)
  else if 0xC2 ≤ b ∧ b ≤ 0xDF then Sum.inr (b &&& 0x1F, 1, 0x80, 0xBF)
  else if 0xE0 ≤ b ∧ b ≤ 0xEF then
    Sum.inr (b &&& 0x0F, 2, (if b = 0xE0 then 0xA0 else 0x80),
      (if b = 0xED then 0x9F else 0xBF))
  else if 0xF0 ≤ b ∧ b ≤ 0xF4 then
    Sum.inr (b &&& 0x07, 3, (if b = 0xF0 then 0x90 else 0x80),
      (if b = 0xF4 then 0x8F else 0xBF))
  else Sum.inl replacementChar

/-- WHATWG UTF-8 decoding loop with replacement.  The state is
`some (codepoint, bytesNeeded, bytesSeen, lowerBoundary, upperBoundary)`
inside a multi-byte sequence and `none` otherwise. -/
def utf8Go : Option (Nat × Nat × Nat × Nat × Nat) → List Nat → List Char
  | none, [] => []
  | some _, [] => [replacementChar]
  | none, b :: rest =>
    match utf8Lead (b % 256) with
    | Sum.inl c => c :: utf8Go none rest
    | Sum.inr (cp, needed, lo, hi) => utf8Go (some (cp, needed, 0, lo, hi)) rest
  | some (cp, needed, seen, lo, hi), b :: rest =>
    let b := b % 256
    if lo ≤ b ∧ b ≤ hi then
      let cp := cp * 64 + (b &&& 0x3F)
      let seen := seen + 1
      if seen = needed then Char.ofNat cp :: utf8Go none rest
      else utf8Go (some (cp, needed, seen, 0x80, 0xBF)) rest
    else
      replacementChar ::
        (match utf8Lead b with
         | Sum.inl c => c :: utf8Go none rest
         | Sum.inr (cp, needed, lo, hi) => utf8Go (some (cp, needed, 0, lo, hi)) rest)

/-- Decode a byte buffer to characters, as `Buffer.toString('utf8')` does. -/
def utf8Decode (l : List Nat) : List Char := utf8Go none l

/-- Decode a byte buffer to a `String`. -/
def utf8Str (l : List Nat) : String := String.mk (utf8Decode l)

/-! ## JavaScript string helpers -/

/-- The character set removed by JavaScript's `trimStart` / `trim`
(ECMAScript WhiteSpace and LineTerminator). -/
def jsWhitespaceChar (c : Char) : Bool :=
  [0x09, 0x0A, 0x0B, 0x0C, 0x0D, 0x20, 0xA0, 0x1680, 0x2000, 0x2001, 0x2002,
    0x2003, 0x2004, 0x2005, 0x2006, 0x2007, 0x2008, 0x2009, 0x200A, 0x2028,
    0x2029, 0x202F, 0x205F, 0x3000, 0xFEFF].contains c.toNat

/-- JavaScript `String.prototype.trim`. -/
def jsTrim (s : String) : String :=
  String.mk (((s.data.dropWhile jsWhitespaceChar).reverse.dropWhile
    jsWhitespaceChar).reverse)

/-- `uncompressedBuf.toString('utf8').trimStart()` starts with `{` or `[`:
the JSON-error-frame classification of both decode loops. -/
def isJsonStart (payload : List Nat) : Bool :=
  match (utf8Decode payload).dropWhile jsWhitespaceChar with
  | c :: _ => c = '\x7b' ∨ c = '\x5b'
  | [] => false

/-- Split on `/\r?\n/` as `String.prototype.split` does: each `\n`, with one
immediately preceding `\r`, separates lines. -/
def splitCRLF : List Char → List (List Char)
  | [] => [[]]
  | '\r' :: '\n' :: rest => [] :: splitCRLF rest
  | '\n' :: rest => [] :: splitCRLF rest
  | c :: rest =>
    match splitCRLF rest with
    | [] => [[c]]
    | s :: ss => (c :: s) :: ss

/-- ASCII-only lower-casing of one character, the case-folding a
non-`unicode` `/i` regular expression applies to an ASCII pattern. -/
def asciiLowerChar (c : Char) : Char :=
  if 'A' ≤ c ∧ c ≤ 'Z' then Char.ofNat (c.toNat + 32) else c

/-- The test of the regular expression `-followup$` with the `i` flag on the
conversation id: it ends with the case-insensitive suffix `-followup`. -/
def isFollowupConv (convId : String) : Bool :=
  List.isSuffixOf "-followup".data (convId.data.map asciiLowerChar)

/-! ## The decoded response message

`GetDeepWikiResponse` as the client reads it: an optional `response`
submessage carrying `textDelta` and `conversationId`, an `isArticleDone`
flag tested with `typeof ... === 'boolean'` (hence optional here), and an
optional `followupQuestions` string accessed through an `as any` cast. -/

/-- The `response` submessage: `msg.response?.textDelta` and
`msg.response?.conversationId`. -/
structure RespPart where
  textDelta : String := ""
  conversationId : String := ""
deriving Repr, DecidableEq

/-- The fields of the decoded `GetDeepWikiResponse` that the client reads. -/
structure WikiMsg where
  response : Option RespPart := none
  isArticleDone : Option Bool := none
  followupQuestions : Option String := none
deriving Repr, DecidableEq

/-- `msg.response?.textDelta ?? ''`. -/
def msgText (m : WikiMsg) : String := (m.response.map RespPart.textDelta).getD ""

/-- `msg.response?.conversationId ?? ''`. -/
def msgConvId (m : WikiMsg) : String :=
  (m.response.map RespPart.conversationId).getD ""

/-- `typeof msg.isArticleDone === 'boolean' && msg.isArticleDone`. -/
def msgDone (m : WikiMsg) : Bool := m.isArticleDone.getD false

/-- `followupQuestions && followupQuestions.trim()`: the followup-questions
block that actually gets routed, `none` when absent, empty, or
whitespace-only. -/
def msgFq (m : WikiMsg) : Option String :=
  match m.followupQuestions with
  | some s => if s ≠ "" ∧ jsTrim s ≠ "" then some s else none
  | none => none

/-- One event of the streaming callback (`DeepwikiStreamMessage`). -/
inductive StreamMsg where
  | article (text : String)
  | followup (text : String)
  | done
deriving Repr, DecidableEq

/-- The events `decodeFrame` emits for one decoded message, in source order:
`done`, then the routed `text`, then `followupQuestions`. -/
def msgEvents (m : WikiMsg) : List StreamMsg :=
  (if msgDone m then [StreamMsg.done] else []) ++
  (if msgText m = "" then []
   else if isFollowupConv (msgConvId m) then [StreamMsg.followup (msgText m)]
   else [StreamMsg.article (msgText m)]) ++
  (match msgFq m with
   | some q => [StreamMsg.followup q]
   | none => [])

/-- The buffered loop body for one decoded message, acting on the state
`(articleParts, followupParts, isArticleDoneSeen)` (source lines 276-292). -/
def accumulateMsg (m : WikiMsg) (st : List String × List String × Bool) :
    List String × List String × Bool :=
  let doneSeen := st.2.2 || msgDone m
  let text := msgText m
  let afterText :=
    if text = "" then (st.1, st.2.1)
    else if isFollowupConv (msgConvId m) then (st.1, st.2.1 ++ [text])
    else (st.1 ++ [text], st.2.1)
  match msgFq m with
  | some q => (afterText.1, afterText.2 ++ [q], doneSeen)
  | none => (afterText.1, afterText.2, doneSeen)

/-! ## Per-frame payload handling (shared by both modes) -/

/-- The type of the external `zlib.gunzipSync`: `none` models a thrown
decompression error. -/
def Gunzip : Type := List Nat → Option (List Nat)

/-- The type of the external generated protobuf decoder
(`GetDeepWikiResponse.internalBinaryRead` behind a `try`): `none` models a
decode exception. -/
def PbDecode : Type := List Nat → Option WikiMsg

/-- Decompression step: if bit 0 of the flag byte is set, try to gunzip and
fall back to the raw payload on failure (the `try`/`catch` of both loops). -/
def frameUncompressed (gz : Gunzip) (flags : Nat) (payload : List Nat) :
    List Nat :=
  if flags % 2 = 1 then (gz payload).getD payload else payload

/-- Full payload pipeline of one frame: decompress, drop JSON error frames,
then protobuf-decode; `none` means the frame contributes nothing. -/
def frameMsg (gz : Gunzip) (dec : PbDecode) (flags : Nat)
    (payload : List Nat) : Option WikiMsg :=
  let u := frameUncompressed gz flags payload
  if isJsonStart u then none else dec u

/-- The callback events one frame produces in streaming mode. -/
def frameEvents (gz : Gunzip) (dec : PbDecode) (flags : Nat)
    (payload : List Nat) : List StreamMsg :=
  match frameMsg gz dec flags payload with
  | some m => msgEvents m
  | none => []

/-- The buffered loop body for one frame. -/
def processFrameBuffered (gz : Gunzip) (dec : PbDecode)
    (st : List String × List String × Bool) (fr : Nat × List Nat) :
    List String × List String × Bool :=
  match frameMsg gz dec fr.1 fr.2 with
  | some m => accumulateMsg m st
  | none => st

/-! ## Frame extraction

Both loops read a flag byte and a 4-byte big-endian length and slice the
payload.  The buffered loop computes the length with JavaScript's signed
32-bit shift-or (`(data[o] << 24) | ... | data[o+3]`) and `break`s on
`len < 0 || offset + len > data.length`; the streaming loop uses the
unsigned `buffer.readUInt32BE(1)`.

The loop iterates at most once per 5 consumed bytes, so a step counter
initialised to the buffer length is a strict upper bound on the number of
iterations; the zero-counter branches are unreachable. -/

/-- Buffered frame extraction (`parseDeepwikiResponses`, lines 237-250),
with the explicit iteration counter. -/
def bufferedFramesGo : Nat → List Nat → List (Nat × List Nat)
  | fuel + 1, flags :: b0 :: b1 :: b2 :: b3 :: rest =>
    let len : Int := toInt32 (be32U b0 b1 b2 b3)
    if len < 0 ∨ (rest.length : Int) < len then []
    else (flags % 256, rest.take len.toNat) ::
      bufferedFramesGo fuel (rest.drop len.toNat)
  | _, _ => []

/-- Buffered frame extraction over a whole response body. -/
def bufferedFrames (data : List Nat) : List (Nat × List Nat) :=
  bufferedFramesGo data.length data

/-- Streaming frame extraction (`processBuffer`, lines 505-514): returns the
extracted `(flags, payload)` frames and the leftover buffer, with the
explicit iteration counter. -/
def extractFramesGo : Nat → List Nat → List (Nat × List Nat) × List Nat
  | fuel + 1, flags :: b0 :: b1 :: b2 :: b3 :: rest =>
    let len := be32U b0 b1 b2 b3
    if rest.length < len then ([], flags :: b0 :: b1 :: b2 :: b3 :: rest)
    else
      let res := extractFramesGo fuel (rest.drop len)
      ((flags % 256, rest.take len) :: res.1, res.2)
  | _, l => ([], l)

/-- Streaming frame extraction: one run of `processBuffer`. -/
def extractFrames (l : List Nat) : List (Nat × List Nat) × List Nat :=
  extractFramesGo l.length l

/-! ## Buffered mode: parseDeepwikiResponses and fetchDeepwikiArticle -/

/-- `['', '---', '', '后续提问', ...unique.map(q => '- ' + q)].join('\n')`. -/
def sectionOf (unique : List String) : String :=
  String.intercalate "\n"
    (["", "---", "", "后续提问"] ++ unique.map (fun q => "- " ++ q))

/-- `followupsRaw.split(/\r?\n/).map(trim).filter(nonempty)`. -/
def lineItems (followupsRaw : String) : List String :=
  (((splitCRLF followupsRaw.data).map String.mk).map jsTrim).filter
    (fun s => s ≠ "")

/-- First-seen-order deduplication with the `seen` set made explicit. -/
def dedupFirst (seen : List String) : List String → List String
  | [] => []
  | x :: xs =>
    if x ∈ seen then dedupFirst seen xs else x :: dedupFirst (x :: seen) xs

/-- The deduplicated followup lines of the buffered finalization. -/
def uniqueLines (followupsRaw : String) : List String :=
  dedupFirst [] (lineItems followupsRaw)

/-- Buffered finalization (source lines 297-307). -/
def finalize (article followupsRaw : String) : String :=
  let unique := uniqueLines followupsRaw
  if unique = [] then article else article ++ "\n" ++ sectionOf unique

/-- The `(articleParts, followupParts, isArticleDoneSeen)` state after the
buffered frame loop (the `isArticleDoneSeen` flag is set but never read by
the source). -/
def bufferedState (gz : Gunzip) (dec : PbDecode) (data : List Nat) :
    List String × List String × Bool :=
  (bufferedFrames data).foldl (processFrameBuffered gz dec) ([], [], false)

/-- `parseDeepwikiResponses` (source lines 232-308). -/
def parseDeepwikiResponses (gz : Gunzip) (dec : PbDecode) (data : List Nat) :
    String :=
  let st := bufferedState gz dec data
  finalize (String.join st.1) (String.join st.2.1)

/-- The failure of the buffered client call. -/
inductive FetchError where
  | emptyResult
deriving Repr, DecidableEq

/-- The response-processing tail of `fetchDeepwikiArticle` (lines 375-381):
parse the whole body, fail with the empty-result error iff the combined
string is empty (`if (!text) throw ...`). -/
def fetchDeepwikiArticle (gz : Gunzip) (dec : PbDecode) (data : List Nat) :
    Except FetchError String :=
  let text := parseDeepwikiResponses gz dec data
  if text = "" then Except.error FetchError.emptyResult else Except.ok text

/-! ## Streaming mode: streamDeepwikiArticle -/

/-- One chunk arrival: append to the buffer, run `processBuffer`, emit the
callback events of every completed frame in order. -/
def streamStep (gz : Gunzip) (dec : PbDecode) (buf chunk : List Nat) :
    List StreamMsg × List Nat :=
  let r := extractFrames (buf ++ chunk)
  (r.1.flatMap (fun fr => frameEvents gz dec fr.1 fr.2), r.2)

/-- Feed a list of chunks through the streaming decoder, collecting all
emitted events in order together with the final leftover buffer. -/
def streamRun (gz : Gunzip) (dec : PbDecode) (buf : List Nat) :
    List (List Nat) → List StreamMsg × List Nat
  | [] => ([], buf)
  | c :: cs =>
    let r := streamStep gz dec buf c
    let r' := streamRun gz dec r.2 cs
    (r.1 ++ r'.1, r'.2)

/-! ## The outbound request frame -/

/-- The single request frame of `fetchDeepwikiArticle` /
`buildDeepwikiRequestFrame` (lines 352-355, 427-431): flag byte `0x01`, the
4-byte big-endian length of the gzip-compressed request bytes, then those
bytes. -/
def buildRequestFrame (gzipped : List Nat) : List Nat :=
  1 :: be32Bytes gzipped.length ++ gzipped

/-! ## The hand-rolled varint codec (src/unnamed/part_001)

`encodeVarint` first coerces with `value >>> 0` (unsigned 32-bit), then emits
7-bit groups; a 32-bit input needs at most 5 groups, so a step counter of 6
never runs out. -/

/-- The emission loop of `encodeVarint` with its step counter. -/
def encodeVarintGo : Nat → Nat → List Nat
  | 0, v => [v]
  | fuel + 1, v =>
    if 0x80 ≤ v then ((v &&& 0x7f) ||| 0x80) :: encodeVarintGo fuel (v / 128)
    else [v]

/-- `encodeVarint` (part_001 lines 23-32). -/
def encodeVarint (value : Nat) : List Nat := encodeVarintGo 6 (value % 2 ^ 32)

/-- The varint read loop embedded in `decodeFirstStringField` /
`decodeStringFields` (part_001 lines 50-62), on the buffer suffix from the
current offset.  `length |= (b & 0x7f) << shift` is JavaScript's signed
32-bit or/shift, modelled on the accumulated bit pattern `acc < 2 ^ 32`
(shift counts are masked `% 32` as JavaScript does).  Returns the signed
value and the number of bytes consumed; `none` is the soft failure when the
buffer ends before a byte without the continuation bit. -/
def readVarint32 : List Nat → Nat → Nat → Option (Int × Nat)
  | [], _, _ => none
  | b :: rest, acc, shift =>
    let b := b % 256
    let acc := (acc ||| (((b &&& 0x7f) <<< (shift % 32)) % 2 ^ 32)) % 2 ^ 32
    if b &&& 0x80 = 0 then some (toInt32 acc, 1)
    else
      match readVarint32 rest acc (shift + 7) with
      | some (v, n) => some (v, n + 1)
      | none => none

/-! ## The modelled generated response decoder

The client imports `GetDeepWikiResponse` from `./generated/deepwiki_full`,
which is not among the repository sources provided under `src/`.  The
concrete decoder below is therefore modelled from the spec and is used only
to instantiate the `dec` parameter in concrete scenarios. -/

/-- Protobuf base-128 varint (unbounded), returning value and remainder. -/
def pbVarint : List Nat → Option (Nat × List Nat)
  | [] => none
  | b :: rest =>
    let b := b % 256
    if b < 0x80 then some (b, rest)
    else
      match pbVarint rest with
      | some (v, r) => some ((b &&& 0x7f) + v * 128, r)
      | none => none

/-- Modelled from the spec: the field scan of the `response` submessage
(`text_delta`, `conversation_id`).  The spec fixes the message shape
(§3 ResponseDelta) and the tolerant decoding discipline (§4.3: unknown
fields are skipped, missing strings default to `""`); the concrete field
numbers (1 = text_delta, 2 = conversation_id) are not visible in the
provided sources and are fixed by this model.  Each loop iteration consumes
at least the tag byte, so the step counter (the buffer length) never runs
out. -/
def decodeRespPartGo : Nat → List Nat → RespPart → Option RespPart
  | _, [], acc => some acc
  | 0, _ :: _, _ => none
  | fuel + 1, l, acc =>
    match pbVarint l with
    | none => none
    | some (tag, r) =>
      let fn := tag / 8
      let wt := tag % 8
      if wt = 0 then
        match pbVarint r with
        | none => none
        | some (_, r') => decodeRespPartGo fuel r' acc
      else if wt = 1 then
        if r.length < 8 then none else decodeRespPartGo fuel (r.drop 8) acc
      else if wt = 2 then
        match pbVarint r with
        | none => none
        | some (len, r') =>
          if r'.length < len then none
          else
            let acc :=
              if fn = 1 then { acc with textDelta := utf8Str (r'.take len) }
              else if fn = 2 then
                { acc with conversationId := utf8Str (r'.take len) }
              else acc
            decodeRespPartGo fuel (r'.drop len) acc
      else if wt = 5 then
        if r.length < 4 then none else decodeRespPartGo fuel (r.drop 4) acc
      else none

/-- Modelled from the spec: decode the `response` submessage. -/
def decodeRespPart (l : List Nat) : Option RespPart :=
  decodeRespPartGo l.length l {}

/-- Modelled from the spec: the field scan of `GetDeepWikiResponse`.  The
concrete field numbers (2 = response, 3 = is_article_done,
4 = followup_questions) are not visible in the provided sources and are
fixed by this model; a failing nested submessage aborts the decode, like a
generated decoder throwing. -/
def decodeWikiMsgGo : Nat → List Nat → WikiMsg → Option WikiMsg
  | _, [], acc => some acc
  | 0, _ :: _, _ => none
  | fuel + 1, l, acc =>
    match pbVarint l with
    | none => none
    | some (tag, r) =>
      let fn := tag / 8
      let wt := tag % 8
      if wt = 0 then
        match pbVarint r with
        | none => none
        | some (v, r') =>
          let acc :=
            if fn = 3 then { acc with isArticleDone := some (v ≠ 0) } else acc
          decodeWikiMsgGo fuel r' acc
      else if wt = 1 then
        if r.length < 8 then none else decodeWikiMsgGo fuel (r.drop 8) acc
      else if wt = 2 then
        match pbVarint r with
        | none => none
        | some (len, r') =>
          if r'.length < len then none
          else if fn = 2 then
            match decodeRespPart (r'.take len) with
            | some sub =>
              decodeWikiMsgGo fuel (r'.drop len) { acc with response := some sub }
            | none => none
          else if fn = 4 then
            decodeWikiMsgGo fuel (r'.drop len)
              { acc with followupQuestions := some (utf8Str (r'.take len)) }
          else decodeWikiMsgGo fuel (r'.drop len) acc
      else if wt = 5 then
        if r.length < 4 then none else decodeWikiMsgGo fuel (r.drop 4) acc
      else none

/-- Modelled from the spec: the generated `GetDeepWikiResponse` decoder. -/
def decodeWikiMsg : PbDecode := fun l => decodeWikiMsgGo l.length l {}

/-- A gunzip collaborator that fails on every input (models
`zlib.gunzipSync` throwing). -/
def gzNone : Gunzip := fun _ => none

/-! ## Concrete byte fixtures used in the scenarios -/

/-- A buffered body whose declared frame length is `2 ^ 31` with exactly
`5 + 2 ^ 31` payload bytes available. -/
def c4LargeInput : List Nat :=
  0 :: 128 :: 0 :: 0 :: 0 :: List.replicate (2 ^ 31) 0

/-- A payload the modelled decoder reads as `text_delta = "A"`,
`conversation_id = ""`. -/
def articlePayloadA : List Nat := [0x12, 3, 0x0a, 1, 0x41]

/-- A payload the modelled decoder reads as `text_delta = "B"`,
`conversation_id = ""`. -/
def articlePayloadB : List Nat := [0x12, 3, 0x0a, 1, 0x42]

/-- A payload that is not decodable: a length-delimited field announcing
five bytes with none following. -/
def corruptPayload : List Nat := [0x0a, 5]

/-- Three uncompressed frames whose middle payload is invalid protobuf. -/
def threeFrameStream : List Nat :=
  [0, 0, 0, 0, 5] ++ articlePayloadA ++ [0, 0, 0, 0, 2] ++ corruptPayload ++
    [0, 0, 0, 0, 5] ++ articlePayloadB

/-- A compressed-flagged frame (whose decompression will fail) followed by a
plain frame. -/
def mixedCompressedStream : List Nat :=
  [1, 0, 0, 0, 5] ++ articlePayloadA ++ [0, 0, 0, 0, 5] ++ articlePayloadB

/-- A single uncompressed frame whose payload carries only
`followup_questions = "Q"`. -/
def followupOnlyStream : List Nat := [0, 0, 0, 0, 3, 0x22, 1, 0x51]

/-- The bytes of the JSON text `\x7b"code":"internal","message":"x"\x7d`
(all ASCII). -/
def jsonErrorPayload : List Nat :=
  [0x7b] ++ ("\"code\":\"internal\",\"message\":\"x\"".data.map Char.toNat) ++
    [0x7d]

/-- A response stream consisting solely of one uncompressed frame whose
payload is the JSON error text. -/
def jsonErrorStream : List Nat :=
  0 :: be32Bytes jsonErrorPayload.length ++ jsonErrorPayload

/-- A payload that is simultaneously a valid protobuf message for the
modelled decoder (`text_delta = "hi"` inside an unknown leading field plus
the `response` field) and JSON-looking: its UTF-8 decoding is
`"\n\t\x7b"` followed by NUL bytes and the remaining fields, so the
left-trimmed text starts with `\x7b`. -/
def jsonLookingProtoPayload : List Nat :=
  [0x0a, 0x09, 0x7b, 0, 0, 0, 0, 0, 0, 0, 0, 0x12, 4, 0x0a, 2, 0x68, 0x69]

/-! ## Properties of the frame extractors -/

theorem extractFramesGo_nil (f : Nat) : extractFramesGo f [] = ([], []) := by
  cases f <;> rfl

theorem extractFramesGo_short (f : Nat) (l : List Nat) (h : l.length < 5) :
    extractFramesGo f l = ([], l) := by
  cases f with
  | zero => rfl
  | succ f =>
    rcases l with _ | ⟨a, _ | ⟨b, _ | ⟨c, _ | ⟨d, _ | ⟨e, rest⟩⟩⟩⟩⟩
    · rfl
    · rfl
    · rfl
    · rfl
    · rfl
    · simp only [List.length_cons] at h; omega

theorem extractFramesGo_irrel (f₁ : Nat) :
    ∀ (f₂ : Nat) (l : List Nat), l.length ≤ f₁ → l.length ≤ f₂ →
      extractFramesGo f₁ l = extractFramesGo f₂ l := by
  induction f₁ with
  | zero =>
    intro f₂ l h₁ _
    have : l = [] := List.eq_nil_of_length_eq_zero (by omega)
    subst this
    rw [extractFramesGo_nil, extractFramesGo_nil]
  | succ n ih =>
    intro f₂ l h₁ h₂
    by_cases hs : l.length < 5
    · rw [extractFramesGo_short _ _ hs, extractFramesGo_short _ _ hs]
    · rcases l with _ | ⟨flags, _ | ⟨b0, _ | ⟨b1, _ | ⟨b2, _ | ⟨b3, rest⟩⟩⟩⟩⟩ <;>
        simp only [List.length_cons, List.length_nil] at hs h₁ h₂ <;> try omega
      cases f₂ with
      | zero => omega
      | succ m =>
        simp only [extractFramesGo]
        split
        · rfl
        · have hd : (rest.drop (be32U b0 b1 b2 b3)).length ≤ rest.length := by
            rw [List.length_drop]; omega
          rw [ih m (rest.drop (be32U b0 b1 b2 b3)) (by omega) (by omega)]

theorem extractFrames_nil : extractFrames [] = ([], []) := rfl

theorem extractFrames_short (l : List Nat) (h : l.length < 5) :
    extractFrames l = ([], l) :=
  extractFramesGo_short _ _ h

theorem extractFrames_cons (flags b0 b1 b2 b3 : Nat) (rest : List Nat) :
    extractFrames (flags :: b0 :: b1 :: b2 :: b3 :: rest) =
      (if rest.length < be32U b0 b1 b2 b3 then
         (([] : List (Nat × List Nat)), flags :: b0 :: b1 :: b2 :: b3 :: rest)
       else
         ((flags % 256, rest.take (be32U b0 b1 b2 b3)) ::
            (extractFrames (rest.drop (be32U b0 b1 b2 b3))).1,
          (extractFrames (rest.drop (be32U b0 b1 b2 b3))).2)) := by
  have hlen : (flags :: b0 :: b1 :: b2 :: b3 :: rest).length = rest.length + 4 + 1 := by
    simp only [List.length_cons]
  unfold extractFrames
  rw [hlen]
  simp only [extractFramesGo]
  split
  · rfl
  · have hd : (rest.drop (be32U b0 b1 b2 b3)).length ≤ rest.length := by
      rw [List.length_drop]; omega
    rw [extractFramesGo_irrel (rest.length + 4) _ _ (by omega) (le_refl _)]

theorem extractFrames_append (n : Nat) :
    ∀ (buf more : List Nat), buf.length ≤ n →
      extractFrames (buf ++ more) =
        ((extractFrames buf).1 ++
           (extractFrames ((extractFrames buf).2 ++ more)).1,
         (extractFrames ((extractFrames buf).2 ++ more)).2) := by
  induction n with
  | zero =>
    intro buf more h
    have : buf = [] := List.eq_nil_of_length_eq_zero (by omega)
    subst this
    simp [extractFrames_nil]
  | succ n ih =>
    intro buf more h
    by_cases hs : buf.length < 5
    · rw [extractFrames_short buf hs]
      simp
    · rcases buf with _ | ⟨flags, _ | ⟨b0, _ | ⟨b1, _ | ⟨b2, _ | ⟨b3, rest⟩⟩⟩⟩⟩ <;>
        simp only [List.length_cons, List.length_nil] at hs h <;> try omega
      set len := be32U b0 b1 b2 b3 with hlendef
      by_cases hlt : rest.length < len
      · rw [extractFrames_cons, if_pos hlt]
        simp
      · have hle : len ≤ rest.length := by omega
        have hcons₂ := extractFrames_cons flags b0 b1 b2 b3 rest
        rw [if_neg hlt] at hcons₂
        have happ : (flags :: b0 :: b1 :: b2 :: b3 :: rest) ++ more =
            flags :: b0 :: b1 :: b2 :: b3 :: (rest ++ more) := by simp
        rw [happ, extractFrames_cons,
          if_neg (by rw [List.length_append]; omega),
          List.take_append_of_le_length hle,
          List.drop_append_of_le_length hle, hcons₂]
        have hd : (rest.drop len).length ≤ n := by
          rw [List.length_drop]; omega
        rw [ih (rest.drop len) more hd]
        simp

theorem extractFrames_leftover (n : Nat) :
    ∀ (l : List Nat), l.length ≤ n →
      extractFrames ((extractFrames l).2) = ([], (extractFrames l).2) := by
  induction n with
  | zero =>
    intro l h
    have : l = [] := List.eq_nil_of_length_eq_zero (by omega)
    subst this
    simp [extractFrames_nil]
  | succ n ih =>
    intro l h
    by_cases hs : l.length < 5
    · rw [extractFrames_short l hs]
      exact extractFrames_short l hs
    · rcases l with _ | ⟨flags, _ | ⟨b0, _ | ⟨b1, _ | ⟨b2, _ | ⟨b3, rest⟩⟩⟩⟩⟩ <;>
        simp only [List.length_cons, List.length_nil] at hs h <;> try omega
      rw [extractFrames_cons]
      split
      next hlt =>
        rw [extractFrames_cons, if_pos hlt]
      next hlt =>
        have hd : (rest.drop (be32U b0 b1 b2 b3)).length ≤ n := by
          rw [List.length_drop]; omega
        exact ih (rest.drop (be32U b0 b1 b2 b3)) hd

theorem bufferedFramesGo_nil (f : Nat) : bufferedFramesGo f [] = [] := by
  cases f <;> rfl

theorem bufferedFramesGo_short (f : Nat) (l : List Nat) (h : l.length < 5) :
    bufferedFramesGo f l = [] := by
  cases f with
  | zero => rfl
  | succ f =>
    rcases l with _ | ⟨a, _ | ⟨b, _ | ⟨c, _ | ⟨d, _ | ⟨e, rest⟩⟩⟩⟩⟩
    · rfl
    · rfl
    · rfl
    · rfl
    · rfl
    · simp only [List.length_cons] at h; omega

theorem bufferedFramesGo_irrel (f₁ : Nat) :
    ∀ (f₂ : Nat) (l : List Nat), l.length ≤ f₁ → l.length ≤ f₂ →
      bufferedFramesGo f₁ l = bufferedFramesGo f₂ l := by
  induction f₁ with
  | zero =>
    intro f₂ l h₁ _
    have : l = [] := List.eq_nil_of_length_eq_zero (by omega)
    subst this
    rw [bufferedFramesGo_nil, bufferedFramesGo_nil]
  | succ n ih =>
    intro f₂ l h₁ h₂
    by_cases hs : l.length < 5
    · rw [bufferedFramesGo_short _ _ hs, bufferedFramesGo_short _ _ hs]
    · rcases l with _ | ⟨flags, _ | ⟨b0, _ | ⟨b1, _ | ⟨b2, _ | ⟨b3, rest⟩⟩⟩⟩⟩ <;>
        simp only [List.length_cons, List.length_nil] at hs h₁ h₂ <;> try omega
      cases f₂ with
      | zero => omega
      | succ m =>
        simp only [bufferedFramesGo]
        split
        · rfl
        · have hd : (rest.drop (toInt32 (be32U b0 b1 b2 b3)).toNat).length ≤
              rest.length := by
            rw [List.length_drop]; omega
          rw [ih m (rest.drop (toInt32 (be32U b0 b1 b2 b3)).toNat) (by omega)
            (by omega)]

theorem bufferedFrames_cons (flags b0 b1 b2 b3 : Nat) (rest : List Nat) :
    bufferedFrames (flags :: b0 :: b1 :: b2 :: b3 :: rest) =
      (if toInt32 (be32U b0 b1 b2 b3) < 0 ∨
          (rest.length : Int) < toInt32 (be32U b0 b1 b2 b3) then []
       else (flags % 256, rest.take (toInt32 (be32U b0 b1 b2 b3)).toNat) ::
         bufferedFrames (rest.drop (toInt32 (be32U b0 b1 b2 b3)).toNat)) := by
  have hlen : (flags :: b0 :: b1 :: b2 :: b3 :: rest).length =
      rest.length + 4 + 1 := by
    simp only [List.length_cons]
  unfold bufferedFrames
  rw [hlen]
  simp only [bufferedFramesGo]
  split
  · rfl
  · have hd : (rest.drop (toInt32 (be32U b0 b1 b2 b3)).toNat).length ≤
        rest.length := by
      rw [List.length_drop]; omega
    rw [bufferedFramesGo_irrel (rest.length + 4) _ _ (by omega) (le_refl _)]

theorem bufferedFrames_short (l : List Nat) (h : l.length < 5) :
    bufferedFrames l = [] :=
  bufferedFramesGo_short _ _ h

theorem streamRun_join (chunks : List (List Nat)) :
    ∀ (gz : Gunzip) (dec : PbDecode) (buf : List Nat),
      extractFrames buf = ([], buf) →
      streamRun gz dec buf chunks =
        ((extractFrames (buf ++ chunks.flatten)).1.flatMap
           (fun fr => frameEvents gz dec fr.1 fr.2),
         (extractFrames (buf ++ chunks.flatten)).2) := by
  induction chunks with
  | nil =>
    intro gz dec buf hbuf
    simp [streamRun, List.flatten, hbuf]
  | cons c cs ih =>
    intro gz dec buf _
    have hassoc : buf ++ (c :: cs).flatten = (buf ++ c) ++ cs.flatten := by
      simp [List.flatten_cons]
    rw [hassoc, extractFrames_append (buf ++ c).length (buf ++ c) cs.flatten (le_refl _)]
    have hleft := extractFrames_leftover (buf ++ c).length (buf ++ c) (le_refl _)
    simp only [streamRun, streamStep]
    rw [ih gz dec (extractFrames (buf ++ c)).2 hleft]
    rw [List.flatMap_append]

/-! ## Properties of deduplication and of the varint reader -/

theorem dedupFirst_mem (l : List String) :
    ∀ (seen : List String) (x : String),
      x ∈ dedupFirst seen l ↔ x ∈ l ∧ x ∉ seen := by
  induction l with
  | nil => intro seen x; simp [dedupFirst]
  | cons a l ih =>
    intro seen x
    by_cases ha : a ∈ seen
    · rw [dedupFirst, if_pos ha, ih]
      constructor
      · rintro ⟨hx, hns⟩; exact ⟨List.mem_cons_of_mem a hx, hns⟩
      · rintro ⟨hx, hns⟩
        rcases List.mem_cons.mp hx with rfl | hx
        · exact absurd ha hns
        · exact ⟨hx, hns⟩
    · rw [dedupFirst, if_neg ha]
      constructor
      · intro hx
        rcases List.mem_cons.mp hx with rfl | hx
        · exact ⟨List.mem_cons_self _ _, ha⟩
        · rcases (ih (a :: seen) x).mp hx with ⟨hl, hns⟩
          exact ⟨List.mem_cons_of_mem a hl,
            fun hc => hns (List.mem_cons_of_mem a hc)⟩
      · rintro ⟨hx, hns⟩
        rcases List.mem_cons.mp hx with rfl | hx
        · exact List.mem_cons_self _ _
        · by_cases hxa : x = a
          · subst hxa; exact List.mem_cons_self _ _
          · exact List.mem_cons_of_mem a ((ih (a :: seen) x).mpr
              ⟨hx, by simp [hxa, hns]⟩)

theorem dedupFirst_sublist (l : List String) :
    ∀ (seen : List String), (dedupFirst seen l).Sublist l := by
  induction l with
  | nil => intro seen; simp [dedupFirst]
  | cons a l ih =>
    intro seen
    rw [dedupFirst]
    split
    · exact (ih seen).cons a
    · exact (ih (a :: seen)).cons₂ a

theorem dedupFirst_nodup (l : List String) :
    ∀ (seen : List String), (dedupFirst seen l).Nodup := by
  induction l with
  | nil => intro seen; simp [dedupFirst]
  | cons a l ih =>
    intro seen
    rw [dedupFirst]
    split
    next ha => exact ih seen
    next ha =>
      refine List.nodup_cons.mpr ⟨fun hc => ?_, ih (a :: seen)⟩
      exact ((dedupFirst_mem l (a :: seen) a).mp hc).2 (List.mem_cons_self _ _)

theorem readVarint32_none (l : List Nat) :
    ∀ (acc shift : Nat),
      readVarint32 l acc shift = none ↔ ∀ b ∈ l, (b % 256) &&& 0x80 ≠ 0 := by
  induction l with
  | nil => intro acc shift; simp [readVarint32]
  | cons b rest ih =>
    intro acc shift
    rw [readVarint32]
    by_cases hb : (b % 256) &&& 0x80 = 0
    · simp only [hb, if_true]
      simp [hb]
    · simp only [hb, if_false]
      rcases hr : readVarint32 rest
          ((acc ||| (((b % 256) &&& 0x7f) <<< (shift % 32)) % 2 ^ 32) % 2 ^ 32)
          (shift + 7) with _ | ⟨v, n⟩
      · simp only [hr]
        have hrest := (ih _ (shift + 7)).mp hr
        constructor
        · intro _ x hx
          rcases List.mem_cons.mp hx with rfl | hx
          · exact hb
          · exact hrest x hx
        · intro _
          trivial
      · simp only [hr]
        constructor
        · intro h; exact absurd h (by simp)
        · intro h
          have : readVarint32 rest
              ((acc ||| (((b % 256) &&& 0x7f) <<< (shift % 32)) % 2 ^ 32) % 2 ^ 32)
              (shift + 7) = none :=
            (ih _ (shift + 7)).mpr (fun x hx => h x (List.mem_cons_of_mem b hx))
          rw [hr] at this
          exact absurd this (by simp)

/-- The big-endian length bytes written by `writeUInt32BE` read back to the
same value. -/
theorem be32U_be32Bytes (n : Nat) (h : n < 2 ^ 32) :
    be32U (n / 2 ^ 24 % 256) (n / 2 ^ 16 % 256) (n / 2 ^ 8 % 256) (n % 256)
      = n := by
  norm_num [be32U]
  omega

/-! ## Claim C3 -/

/-- C3: chunking invariance of the streaming decoder.  For every response
byte sequence and every partition of it into chunks (`chunks.flatten` is the
byte sequence; one byte per chunk is the partition into singletons), feeding
the chunks one at a time emits exactly the events of processing the whole
sequence as a single chunk, in the same order, with the same leftover
buffer.  The decoder is a total function (no error on partial frames), and
instantiating the theorem at each prefix of the partition shows a frame's
events appear only once the frame is fully buffered. -/
theorem C3_streaming_chunk_equivalence (gz : Gunzip) (dec : PbDecode)
    (chunks : List (List Nat)) :
    streamRun gz dec [] chunks = streamStep gz dec [] chunks.flatten := by
  rw [streamRun_join chunks gz dec [] extractFrames_nil]
  simp [streamStep]

/-! ## Claim C4 -/

/-- C4 (amended): both decoders read the frame length as the big-endian
32-bit value of bytes 1..4, and — the streaming decoder always, the
buffered decoder whenever the top bit of the first length byte is clear
(declared length below `2 ^ 31`) — extract a frame exactly when `5 + length`
bytes are buffered, with fewer bytes never an error (the streaming decoder
keeps the buffer, the buffered loop stops).  The buffered decoder reads the
length through JavaScript's signed 32-bit arithmetic, so declared lengths
`≥ 2 ^ 31` abort it instead; see the counterexample. -/
theorem C4_frame_header_amended :
    (∀ (flags b0 b1 b2 b3 : Nat) (rest : List Nat), b0 % 256 < 128 →
      bufferedFrames (flags :: b0 :: b1 :: b2 :: b3 :: rest) =
        (if rest.length < be32U b0 b1 b2 b3 then []
         else (flags % 256, rest.take (be32U b0 b1 b2 b3)) ::
           bufferedFrames (rest.drop (be32U b0 b1 b2 b3)))) ∧
    (∀ (flags b0 b1 b2 b3 : Nat) (rest : List Nat),
      extractFrames (flags :: b0 :: b1 :: b2 :: b3 :: rest) =
        (if rest.length < be32U b0 b1 b2 b3 then
           (([] : List (Nat × List Nat)), flags :: b0 :: b1 :: b2 :: b3 :: rest)
         else ((flags % 256, rest.take (be32U b0 b1 b2 b3)) ::
             (extractFrames (rest.drop (be32U b0 b1 b2 b3))).1,
           (extractFrames (rest.drop (be32U b0 b1 b2 b3))).2))) ∧
    (∀ l : List Nat, l.length < 5 →
      extractFrames l = ([], l) ∧ bufferedFrames l = []) := by
  refine ⟨?_, fun flags b0 b1 b2 b3 rest => extractFrames_cons _ _ _ _ _ _,
    fun l h => ⟨extractFrames_short l h, bufferedFrames_short l h⟩⟩
  intro flags b0 b1 b2 b3 rest hb
  have hlt31 : be32U b0 b1 b2 b3 < 2 ^ 31 := by
    norm_num [be32U]
    omega
  have htoInt : toInt32 (be32U b0 b1 b2 b3) = (be32U b0 b1 b2 b3 : Int) := by
    unfold toInt32
    rw [Nat.mod_eq_of_lt (by omega)]
    rw [if_pos (by omega)]
  rw [bufferedFrames_cons, htoInt]
  by_cases hlen : rest.length < be32U b0 b1 b2 b3
  · rw [if_pos hlen, if_pos (Or.inr (by exact_mod_cast hlen))]
  · rw [if_neg hlen, if_neg (by omega), Int.toNat_natCast]

/-- Witness for C4 (amended): a concrete frame with a small declared length
is extracted by the buffered decoder exactly as the theorem states. -/
theorem C4_witness :
    (0 % 256 < 128) ∧ bufferedFrames [9, 0, 0, 0, 1, 42] = [(9, [42])] := by
  refine ⟨by decide, ?_⟩
  have h := C4_frame_header_amended.1 9 0 0 0 1 [42] (by decide)
  rw [show ([9, 0, 0, 0, 1, 42] : List Nat) = 9 :: 0 :: 0 :: 0 :: 1 :: [42]
    from rfl, h]
  norm_num [be32U, bufferedFrames, bufferedFramesGo]

/-- Counterexample to C4 as stated: the input has exactly `5 + length` bytes
buffered at the header-read position (length read as unsigned big-endian
`uint32` is `2 ^ 31`), yet the buffered decoder extracts no frame — the
signed 32-bit read makes the length negative and aborts the loop. -/
theorem C4_counterexample :
    c4LargeInput.length = 5 + be32U 128 0 0 0 ∧ be32U 128 0 0 0 = 2 ^ 31 ∧
    bufferedFrames c4LargeInput = [] := by
  refine ⟨?_, by norm_num [be32U], ?_⟩
  · show (0 :: 128 :: 0 :: 0 :: 0 ::
      List.replicate (2 ^ 31) (0 : Nat)).length = 5 + be32U 128 0 0 0
    rw [List.length_cons, List.length_cons, List.length_cons, List.length_cons,
      List.length_cons, List.length_replicate]
    norm_num [be32U]
  · show bufferedFrames (0 :: 128 :: 0 :: 0 :: 0 ::
      List.replicate (2 ^ 31) 0) = []
    rw [bufferedFrames_cons, if_pos]
    left
    norm_num [toInt32, be32U]

/-! ## Claim C9 -/

/-- C9: the outbound HTTP body built for every request is exactly one frame:
flag byte `0x01`, the 4-byte big-endian length of the gzip-compressed
request bytes, then exactly those bytes, for a total of `5 + length` bytes;
parsing the body back yields exactly one frame and nothing left over, so no
multi-frame request is ever produced.  (`writeUInt32BE` requires the length
to fit 32 bits, whence the hypothesis.) -/
theorem C9_single_request_frame (g : List Nat) (h : g.length < 2 ^ 32) :
    (buildRequestFrame g).length = 5 + g.length ∧
    buildRequestFrame g = [1] ++ be32Bytes g.length ++ g ∧
    extractFrames (buildRequestFrame g) = ([(1, g)], []) := by
  refine ⟨by simp only [buildRequestFrame, be32Bytes, List.length_cons,
    List.length_append, List.length_nil]
             try omega, by simp [buildRequestFrame], ?_⟩
  show extractFrames (1 :: (be32Bytes g.length ++ g)) = ([(1, g)], [])
  rw [show (1 : Nat) :: (be32Bytes g.length ++ g) =
    1 :: (g.length / 2 ^ 24 % 256) :: (g.length / 2 ^ 16 % 256) ::
      (g.length / 2 ^ 8 % 256) :: (g.length % 256) :: g from by
    simp [be32Bytes]]
  rw [extractFrames_cons, be32U_be32Bytes g.length h,
    if_neg (by omega), List.take_length, List.drop_length, extractFrames_nil]

/-- Witness for C9 at a concrete compressed payload. -/
theorem C9_witness :
    (([7, 8] : List Nat)).length < 2 ^ 32 ∧
    extractFrames (buildRequestFrame [7, 8]) = ([(1, [7, 8])], []) :=
  ⟨by norm_num, (C9_single_request_frame [7, 8] (by norm_num)).2.2⟩

/-! ## Claim C5 -/

/-- C5 (amended): the varint reader embedded in `decodeFirstStringField`
round-trips `encodeVarint` exactly for the claimed inputs below `2 ^ 31`;
for `2 ^ 32 - 1` the reader's signed 32-bit accumulation returns the value
reinterpreted as a signed 32-bit integer (`2 ^ 32 - 1 - 2 ^ 32 = -1`, see
the counterexample), after consuming all five bytes; and the reader fails
softly exactly when the buffer ends before a byte without the continuation
bit. -/
theorem C5_varint_roundtrip_amended :
    (∀ n : Nat, n ∈ ([0, 1, 127, 128, 16383, 16384] : List Nat) →
      readVarint32 (encodeVarint n) 0 0 =
        some ((n : Int), (encodeVarint n).length)) ∧
    readVarint32 (encodeVarint (2 ^ 32 - 1)) 0 0 =
      some (((2 ^ 32 - 1 : Nat) : Int) - 2 ^ 32, 5) ∧
    (∀ (l : List Nat) (acc shift : Nat),
      readVarint32 l acc shift = none ↔
        ∀ b ∈ l, (b % 256) &&& 0x80 ≠ 0) := by
  exact ⟨by decide, by decide, fun l acc shift => readVarint32_none l acc shift⟩

/-- Witness for C5 (amended) at `n = 127`. -/
theorem C5_witness :
    (127 : Nat) ∈ ([0, 1, 127, 128, 16383, 16384] : List Nat) ∧
    readVarint32 (encodeVarint 127) 0 0 =
      some ((127 : Int), (encodeVarint 127).length) :=
  ⟨by decide, C5_varint_roundtrip_amended.1 127 (by decide)⟩

/-- Counterexample to C5 as stated: decoding `encodeVarint (2 ^ 32 - 1)`
yields `-1`, not `2 ^ 32 - 1` — the reader accumulates through JavaScript's
signed 32-bit `|=`. -/
theorem C5_counterexample :
    readVarint32 (encodeVarint (2 ^ 32 - 1)) 0 0 = some (-1, 5) ∧
    ((-1 : Int) ≠ ((2 ^ 32 - 1 : Nat) : Int)) := by
  decide

/-! ## Claim C6 -/

/-- C6: buffered finalization.  The accumulated followup text is split on
`\r?\n` boundaries, each line trimmed, empty lines dropped (`lineItems`),
and duplicates removed by exact string equality keeping the first
occurrence: the result has no duplicates, is a subsequence of the
trimmed lines (so first-seen order is preserved), and keeps exactly the
members of the trimmed lines; the claimed example reduces to
`["Why?", "How?"]` in that order.  If no lines remain the article text is
returned unchanged, otherwise the horizontal-rule/header section is
appended. -/
theorem C6_finalization :
    (uniqueLines "Why?\nWhy?\n\nHow?" = ["Why?", "How?"] ∧
     uniqueLines " Why?\r\n Why? \n\r\nHow?" = ["Why?", "How?"]) ∧
    (∀ f : String, (uniqueLines f).Nodup) ∧
    (∀ f : String, (uniqueLines f).Sublist (lineItems f)) ∧
    (∀ f x : String, x ∈ uniqueLines f ↔ x ∈ lineItems f) ∧
    (∀ a f : String, finalize a f =
      if uniqueLines f = [] then a
      else a ++ "\n" ++ sectionOf (uniqueLines f)) := by
  refine ⟨by decide, fun f => dedupFirst_nodup _ _,
    fun f => dedupFirst_sublist _ _, fun f x => ?_, fun a f => rfl⟩
  rw [uniqueLines, dedupFirst_mem]
  simp

/-! ## Claim C2 -/

/-- C2 (amended): in both the buffered accumulator and the streaming event
emitter, a non-empty `text_delta` is routed to the followup channel iff the
conversation id ends with the case-insensitive suffix `-followup` (and to
the article channel otherwise), with the claimed concrete routings; and
`followup_questions` content is routed to the followup channel regardless
of conversation id iff it is non-empty and does not trim to the empty
string — whitespace-only content, although non-empty, is discarded (see the
counterexample). -/
theorem C2_routing_amended :
    (∀ (m : WikiMsg) (a f : List String) (d : Bool),
      accumulateMsg m (a, f, d) =
        (a ++ (if msgText m ≠ "" ∧ isFollowupConv (msgConvId m) = false
               then [msgText m] else []),
         f ++ (if msgText m ≠ "" ∧ isFollowupConv (msgConvId m) = true
               then [msgText m] else [])
           ++ (match msgFq m with | some q => [q] | none => []),
         d || msgDone m)) ∧
    (∀ m : WikiMsg,
      msgEvents m =
        (if msgDone m then [StreamMsg.done] else [])
        ++ (if msgText m ≠ "" ∧ isFollowupConv (msgConvId m) = true
            then [StreamMsg.followup (msgText m)] else [])
        ++ (if msgText m ≠ "" ∧ isFollowupConv (msgConvId m) = false
            then [StreamMsg.article (msgText m)] else [])
        ++ (match msgFq m with
            | some q => [StreamMsg.followup q] | none => [])) ∧
    (isFollowupConv "abc-followup" = true ∧ isFollowupConv "abc" = false ∧
     isFollowupConv "" = false ∧ isFollowupConv "ABC-FOLLOWUP" = true ∧
     isFollowupConv "x-Followup" = true) ∧
    (∀ s : String,
      msgFq ⟨none, none, some s⟩ =
        if s ≠ "" ∧ jsTrim s ≠ "" then some s else none) := by
  refine ⟨?_, ?_, by decide, fun s => rfl⟩
  · intro m a f d
    rcases hq : msgFq m with _ | q <;>
      by_cases ht : msgText m = "" <;>
        cases hb : isFollowupConv (msgConvId m) <;>
          simp [accumulateMsg, hq, ht, hb]
  · intro m
    rcases hq : msgFq m with _ | q <;>
      by_cases ht : msgText m = "" <;>
        cases hb : isFollowupConv (msgConvId m) <;>
          simp [msgEvents, hq, ht, hb]

/-- Counterexample to C2 as stated: a message whose `followup_questions` is
the non-empty string `" "` routes nothing to the followup channel in either
mode. -/
theorem C2_counterexample :
    ((" " : String) ≠ "") ∧
    accumulateMsg ⟨none, none, some " "⟩ ([], [], false) = ([], [], false) ∧
    msgEvents ⟨none, none, some " "⟩ = [] := by
  decide

/-! ## Claim C7 -/

theorem frameEvents_eq_nil {gz : Gunzip} {dec : PbDecode} {flags : Nat}
    {payload : List Nat} (h : frameMsg gz dec flags payload = none) :
    frameEvents gz dec flags payload = [] := by
  rw [frameEvents, h]

theorem frameEvents_eq_msg {gz : Gunzip} {dec : PbDecode} {flags : Nat}
    {payload : List Nat} {m : WikiMsg}
    (h : frameMsg gz dec flags payload = some m) :
    frameEvents gz dec flags payload = msgEvents m := by
  rw [frameEvents, h]

theorem processFrameBuffered_none {gz : Gunzip} {dec : PbDecode}
    {st : List String × List String × Bool} {fr : Nat × List Nat}
    (h : frameMsg gz dec fr.1 fr.2 = none) :
    processFrameBuffered gz dec st fr = st := by
  rw [processFrameBuffered, h]

theorem processFrameBuffered_some {gz : Gunzip} {dec : PbDecode}
    {st : List String × List String × Bool} {fr : Nat × List Nat}
    {m : WikiMsg} (h : frameMsg gz dec fr.1 fr.2 = some m) :
    processFrameBuffered gz dec st fr = accumulateMsg m st := by
  rw [processFrameBuffered, h]

/-- C7: a frame whose payload does not decode contributes nothing and the
remaining frames are still processed: over any frame list, both the
streaming event concatenation and the buffered fold are unchanged by
dropping the undecodable frames (the `catch`-and-skip of both loops is the
`none` branch, so no error escapes); concretely, for three frames whose
middle payload is invalid protobuf, the buffered decode yields exactly the
concatenation of the first and third `text_delta`. -/
theorem C7_corrupt_frame_skipped :
    (∀ (gz : Gunzip) (dec : PbDecode) (frames : List (Nat × List Nat)),
      frames.flatMap (fun fr => frameEvents gz dec fr.1 fr.2) =
        (frames.filter
          (fun fr => (frameMsg gz dec fr.1 fr.2).isSome)).flatMap
            (fun fr => frameEvents gz dec fr.1 fr.2)) ∧
    (∀ (gz : Gunzip) (dec : PbDecode) (frames : List (Nat × List Nat))
        (st : List String × List String × Bool),
      frames.foldl (processFrameBuffered gz dec) st =
        (frames.filter
          (fun fr => (frameMsg gz dec fr.1 fr.2).isSome)).foldl
            (processFrameBuffered gz dec) st) ∧
    decodeWikiMsg corruptPayload = none ∧
    parseDeepwikiResponses gzNone decodeWikiMsg threeFrameStream = "AB" := by
  refine ⟨?_, ?_, by decide, by decide⟩
  · intro gz dec frames
    induction frames with
    | nil => rfl
    | cons fr frames ih =>
      rcases h : frameMsg gz dec fr.1 fr.2 with _ | m
      · rw [List.flatMap_cons, frameEvents_eq_nil h, List.nil_append, ih,
          List.filter_cons]
        simp [h]
      · rw [List.flatMap_cons, List.filter_cons]
        simp only [h, Option.isSome_some, if_true]
        rw [List.flatMap_cons, ih]
  · intro gz dec frames
    induction frames with
    | nil => intro st; rfl
    | cons fr frames ih =>
      intro st
      rcases h : frameMsg gz dec fr.1 fr.2 with _ | m
      · rw [List.foldl_cons, processFrameBuffered_none h, ih st,
          List.filter_cons]
        simp [h]
      · rw [List.foldl_cons, List.filter_cons]
        simp only [h, Option.isSome_some, if_true]
        rw [List.foldl_cons, ih]

/-! ## Claim C8 -/

/-- C8: for every frame whose flags have bit 0 set, the decoder attempts to
gunzip the payload; when decompression fails it falls back to the raw
payload bytes and the frame continues through the normal pipeline (it is a
total function, so no error reaches the caller), and when decompression
succeeds the decompressed bytes are used; concretely, a stream whose first
frame is compressed-flagged but fails to decompress still contributes its
raw-decoded text and the following frame is processed. -/
theorem C8_gunzip_fallback :
    (∀ (gz : Gunzip) (dec : PbDecode) (flags : Nat) (payload : List Nat),
      flags % 2 = 1 → gz payload = none →
      frameMsg gz dec flags payload =
        (if isJsonStart payload then none else dec payload)) ∧
    (∀ (gz : Gunzip) (dec : PbDecode) (flags : Nat) (payload u : List Nat),
      flags % 2 = 1 → gz payload = some u →
      frameMsg gz dec flags payload =
        (if isJsonStart u then none else dec u)) ∧
    parseDeepwikiResponses gzNone decodeWikiMsg mixedCompressedStream
      = "AB" := by
  refine ⟨?_, ?_, by decide⟩
  · intro gz dec flags payload hf hgz
    simp [frameMsg, frameUncompressed, hf, hgz]
  · intro gz dec flags payload u hf hgz
    simp [frameMsg, frameUncompressed, hf, hgz]

/-- Witness for C8: the failing gunzip collaborator on a concrete
compressed-flagged frame falls back to raw decoding. -/
theorem C8_witness :
    (1 % 2 = 1) ∧ gzNone articlePayloadA = none ∧
    frameMsg gzNone decodeWikiMsg 1 articlePayloadA =
      (if isJsonStart articlePayloadA then none
       else decodeWikiMsg articlePayloadA) :=
  ⟨rfl, rfl, C8_gunzip_fallback.1 gzNone decodeWikiMsg 1 articlePayloadA rfl rfl⟩

/-! ## Claim C10 -/

/-- C10: a frame whose decompressed payload, decoded as UTF-8 and
left-trimmed, starts with `\x7b` or `\x5b` contributes no message at all —
no article text, no followup text, no done flag (the buffered state is
unchanged and no streaming event is emitted) — because the classification
is applied before any protobuf decode is attempted; the concrete payload
below is simultaneously a valid protobuf message with non-empty
`text_delta` for the modelled decoder, and is still discarded. -/
theorem C10_json_before_protobuf :
    (∀ (gz : Gunzip) (dec : PbDecode) (flags : Nat) (payload : List Nat),
      isJsonStart (frameUncompressed gz flags payload) = true →
      frameMsg gz dec flags payload = none) ∧
    (∀ (gz : Gunzip) (dec : PbDecode) (flags : Nat) (payload : List Nat)
        (st : List String × List String × Bool),
      isJsonStart (frameUncompressed gz flags payload) = true →
      processFrameBuffered gz dec st (flags, payload) = st) ∧
    (∀ (gz : Gunzip) (dec : PbDecode) (flags : Nat) (payload : List Nat),
      isJsonStart (frameUncompressed gz flags payload) = true →
      frameEvents gz dec flags payload = []) ∧
    (decodeWikiMsg jsonLookingProtoPayload =
        some ⟨some ⟨"hi", ""⟩, none, none⟩ ∧
     msgText ⟨some ⟨"hi", ""⟩, none, none⟩ = "hi" ∧
     isJsonStart jsonLookingProtoPayload = true ∧
     frameMsg gzNone decodeWikiMsg 0 jsonLookingProtoPayload = none) := by
  refine ⟨?_, ?_, ?_, by decide, by decide, by decide, by decide⟩
  · intro gz dec flags payload h
    simp [frameMsg, h]
  · intro gz dec flags payload st h
    simp [processFrameBuffered, frameMsg, h]
  · intro gz dec flags payload h
    simp [frameEvents, frameMsg, h]

/-- Witness for C10: the JSON-looking, protobuf-valid payload is discarded
by the frame pipeline. -/
theorem C10_witness :
    isJsonStart (frameUncompressed gzNone 0 jsonLookingProtoPayload) = true ∧
    frameMsg gzNone decodeWikiMsg 0 jsonLookingProtoPayload = none :=
  ⟨by decide, C10_json_before_protobuf.1 gzNone decodeWikiMsg 0
    jsonLookingProtoPayload (by decide)⟩

/-! ## Claim C1 -/

theorem finalize_eq_empty_iff (a f : String) :
    finalize a f = "" ↔ a = "" ∧ uniqueLines f = [] := by
  unfold finalize
  by_cases hu : uniqueLines f = []
  · simp [hu]
  · rw [if_neg hu]
    constructor
    · intro hc
      exfalso
      have hlen := congrArg String.length hc
      rw [String.length_append, String.length_append] at hlen
      have h1 : ("\n" : String).length = 1 := rfl
      have h0 : ("" : String).length = 0 := rfl
      omega
    · rintro ⟨_, hfu⟩
      exact absurd hfu hu

/-- C1 (amended): the buffered call fails with the empty-result error iff
both no article text was extracted from any frame and no followup line
survived finalization — accumulated followup text alone produces a
non-empty result and suppresses the error (see the counterexample); in
particular, a stream consisting solely of one frame whose payload is the
JSON text `\x7b"code":"internal","message":"x"\x7d` yields the empty-result
error. -/
theorem C1_empty_result_amended :
    (∀ (gz : Gunzip) (dec : PbDecode) (data : List Nat),
      fetchDeepwikiArticle gz dec data = Except.error FetchError.emptyResult ↔
        (String.join (bufferedState gz dec data).1 = "" ∧
         uniqueLines (String.join (bufferedState gz dec data).2.1) = [])) ∧
    fetchDeepwikiArticle gzNone decodeWikiMsg jsonErrorStream =
      Except.error FetchError.emptyResult := by
  refine ⟨?_, by rfl⟩
  intro gz dec data
  have hkey : (fetchDeepwikiArticle gz dec data =
      Except.error FetchError.emptyResult) ↔
      parseDeepwikiResponses gz dec data = "" := by
    unfold fetchDeepwikiArticle
    by_cases ht : parseDeepwikiResponses gz dec data = "" <;> simp [ht]
  rw [hkey]
  exact finalize_eq_empty_iff _ _

/-- Counterexample to C1 as stated: a stream whose only frame carries
followup text but no article text makes the buffered call succeed — no
empty-result error is raised even though no article text was extracted. -/
theorem C1_counterexample :
    String.join (bufferedState gzNone decodeWikiMsg followupOnlyStream).1
      = "" ∧
    fetchDeepwikiArticle gzNone decodeWikiMsg followupOnlyStream =
      Except.ok "\n\n---\n\n后续提问\n- Q" :=
  ⟨rfl, rfl⟩

end Deepwiki
